import Mathlib

/-!
Shallow embedding of the AIDA64 key codec (src/aida64-keys-lib/src/lib.rs).

Machine integers are modelled as Nat / Int with explicit wrapping where it
matters.  All i32 quantities appearing in the codec are small (below 2^21),
so i32 overflow never occurs; the one place the source truncates (the
`as i32` casts of `num_days`) is modelled by `toI32`.  A Rust panic is
modelled by `Option` (for `enc_part`, whose slice indexing panics on a
negative remainder) and by `PResult.panicked` (for `from_key`, which calls
the panicking chrono constructor `Utc.ymd` on decoded date fields).
chrono calendar dates are modelled by `CivilDate`; subtraction of two
`Date<Utc>` values yields the difference of their proleptic-Gregorian day
numbers (`daysFromCivil`), and `Utc.ymd y m d` succeeds exactly on valid
calendar dates (`isValidYmd`).
-/

/-- The fixed 34-symbol alphabet `KEY_CHARS`, as ASCII byte values
(D Y 1 4 U F 3 R H W C X L Q B 6 I K J T 9 N 5 A G S 2 P M 8 V Z 7 E). -/
def KEY_CHARS : List Nat :=
  [68, 89, 49, 52, 85, 70, 51, 82, 72, 87, 67, 88, 76, 81, 66, 54,
   73, 75, 74, 84, 57, 78, 53, 65, 71, 83, 50, 80, 77, 56, 86, 90,
   55, 69]

/-- Rust `u8::is_ascii_alphanumeric`: 0-9, A-Z or a-z. -/
def isAsciiAlnum (c : Nat) : Bool :=
  decide ((48 ≤ c ∧ c ≤ 57) ∨ (65 ≤ c ∧ c ≤ 90) ∨ (97 ≤ c ∧ c ≤ 122))

/-- Index of a byte in the alphabet, 0 when absent:
`KEY_CHARS.iter().position(|&c2| c2 == *c1).unwrap_or(0)`. -/
def charIndex (c : Nat) : Nat :=
  (KEY_CHARS.findIdx? (fun x => x == c)).getD 0

/-- `dec_part`: base-34 big-endian fold over the symbols.  The source uses
i32; every value that arises is below 34^4, so Nat is an exact model. -/
def decPart (l : List Nat) : Nat :=
  l.foldl (fun r c => r * 34 + charIndex c) 0

/-- Two's-complement XOR on mathematical integers, the semantics of `^` on
i32 for values in range (no overflow is possible: XOR of in-range i32
values is an in-range i32 value). -/
def xorI : Int → Int → Int
  | .ofNat m, .ofNat n => .ofNat (m ^^^ n)
  | .ofNat m, .negSucc n => .negSucc (m ^^^ n)
  | .negSucc m, .ofNat n => .negSucc (m ^^^ n)
  | .negSucc m, .negSucc n => .ofNat (m ^^^ n)

/-- `enc_part`: writes `n` base-34 digits of `val`, rightmost digit first,
dividing by 34 after each digit; high digits beyond the width are dropped.
Rust computes `KEY_CHARS[(val % 34) as usize]` with truncated i32 `%`; for
a negative remainder the `as usize` cast produces a huge index and the
indexing panics, which is modelled by `none`. -/
def encPart : Int → Nat → Option (List Nat)
  | _, 0 => some []
  | val, n + 1 =>
      let r := val.tmod 34
      if 0 ≤ r then
        (encPart (val.tdiv 34) n).map (fun l => l ++ [KEY_CHARS.getD r.toNat 0])
      else
        none

/-- The total Nat restriction of `encPart` (the remainder of a Nat by 34 is
never negative); `encPart_ofNat` below proves the two agree. -/
def encPartN : Nat → Nat → List Nat
  | _, 0 => []
  | v, n + 1 => encPartN (v / 34) n ++ [KEY_CHARS.getD (v % 34) 0]

/-- One shift step of the checksum register, u32 arithmetic:
`if r AND 0x8000 == 0 then r << 1 else (r << 1) XOR 0x8201`. -/
def csRound (r : Nat) : Nat :=
  if r &&& 0x8000 == 0 then (r <<< 1) % 4294967296
  else ((r <<< 1) % 4294967296) ^^^ 0x8201

/-- Absorb one raw key byte into the register and run eight shift steps. -/
def csFoldByte (r b : Nat) : Nat :=
  (List.range 8).foldl (fun s _ => csRound s) (r ^^^ (b <<< 8))

/-- `get_checksum`: fold over the raw bytes, keep the low 16 bits, reduce
once modulo 0x9987. -/
def getChecksum (l : List Nat) : Nat :=
  ((l.foldl csFoldByte 0) &&& 0xFFFF) % 0x9987

/-- `verify_checksum`: a 25-byte key passes iff the middle of the three
base-34 digits of the checksum of bytes 0..24 equals byte 24.  The source
calls `enc_part` on the (nonnegative) checksum; `encPartN` is the same
computation by `encPart_ofNat`. -/
def verifyChecksum (key : List Nat) : Bool :=
  key.length == 25 &&
    (encPartN (getChecksum (key.take 24)) 3).getD 1 0 == key.getD 24 0

/-- A civil (proleptic Gregorian) calendar date, the model of
chrono `Date<Utc>`. -/
structure CivilDate where
  year : Int
  month : Nat
  day : Nat
deriving DecidableEq

/-- Gregorian leap-year rule. -/
def isLeap (y : Int) : Bool :=
  y % 4 == 0 && (y % 100 != 0 || y % 400 == 0)

/-- Length of each month. -/
def monthDays (leap : Bool) : List Nat :=
  [31, if leap then 29 else 28, 31, 30, 31, 30, 31, 31, 30, 31, 30, 31]

def daysInMonth (y : Int) (m : Nat) : Nat :=
  (monthDays (isLeap y)).getD (m - 1) 0

/-- Validity of a year-month-day triple.  chrono `Utc.ymd y m d` (used by
`Date::dec`) panics exactly when this is false, for years of the magnitude
appearing here. -/
def isValidYmd (y : Int) (m d : Nat) : Bool :=
  decide (1 ≤ m ∧ m ≤ 12 ∧ 1 ≤ d ∧ d ≤ daysInMonth y m)

def clampI (x lo hi : Int) : Int := max lo (min x hi)

def clampN (x lo hi : Nat) : Nat := max lo (min x hi)

/-- `DateExt::enc`: pack a date as `(clamp year - 2003) * 512 +
clamp month * 32 + clamp day` (i32 arithmetic, always in range). -/
def dateEnc (dt : CivilDate) : Int :=
  let y := clampI dt.year 2004 2099 - 2003
  let m := clampN dt.month 1 12
  let d := clampN dt.day 1 31
  y * 512 + ((m * 32 + d : Nat) : Int)

/-- `DateExt::dec`: extract `day = val AND 31`, `month = (val >> 5) AND 15`,
`year = ((val >> 9) AND 31) + 2003` and build the date with `Utc.ymd`,
which panics (`none`) when the triple is not a valid calendar date.  Every
call site passes a nonnegative value below 2^21, so the `toNat` view of the
i32 bit operations is exact. -/
def dateDec (val : Int) : Option CivilDate :=
  let v := val.toNat
  let day := v &&& 31
  let month := (v >>> 5) &&& 15
  let year : Int := ((v >>> 9) &&& 31 : Nat) + 2003
  if isValidYmd year month day then some ⟨year, month, day⟩ else none

/-- Cumulative day count before each month. -/
def cumMonthDays (leap : Bool) : List Nat :=
  if leap then [0, 31, 60, 91, 121, 152, 182, 213, 244, 274, 305, 335]
  else [0, 31, 59, 90, 120, 151, 181, 212, 243, 273, 304, 334]

/-- Proleptic-Gregorian day number of a date (for years at least 1; all
dates built by this codec have year at least 2003).  chrono subtraction of
two `Date<Utc>` values yields `Duration::days` of the difference of these
numbers. -/
def daysFromCivil (dt : CivilDate) : Nat :=
  let y := (dt.year - 1).toNat
  365 * y + y / 4 + y / 400 - y / 100 +
    (cumMonthDays (isLeap dt.year)).getD (dt.month - 1) 0 + dt.day

/-- Wrapping cast of an integer to i32 range (`as i32` on an i64). -/
def toI32 (n : Int) : Int :=
  (n + 2147483648) % 4294967296 - 2147483648

/-- The error type of the codec. -/
inductive KeyError where
  | InvalidChecksum (expected found : Nat)
  | InvalidLength (expected found : Nat)
  | UnknownEdition
deriving DecidableEq

/-- The four product editions, `KeyEdition`. -/
inductive KeyEdition where
  | Business
  | Extreme
  | Engineer
  | NetworkAudit
deriving DecidableEq

/-- Discriminant of an edition (`KeyEdition as i32`). -/
def editionNum : KeyEdition → Int
  | .Business => 0
  | .Extreme => 1
  | .Engineer => 2
  | .NetworkAudit => 3

/-- `TryFrom<i32> for KeyEdition`. -/
def editionFromInt (v : Int) : Except KeyError KeyEdition :=
  if v = 0 then .ok .Business
  else if v = 1 then .ok .Extreme
  else if v = 2 then .ok .Engineer
  else if v = 3 then .ok .NetworkAudit
  else .error .UnknownEdition

/-- The `License` record.  Durations (`expiry`, `maintenance_expiry`) are
modelled by their whole-day counts, the only observation the codec ever
makes of a chrono `Duration` (`num_days`). -/
structure License where
  edition : KeyEdition
  seats : Int
  purchaseDate : CivilDate
  expiry : Option Int
  maintenanceExpiry : Int
  unk1 : Int
  unk2 : Int
  unk3 : Int
deriving DecidableEq

/-- Result of `from_key`: success, one of the three `KeyError` values, or a
panic escaping from `Utc.ymd` inside `Date::dec`. -/
inductive PResult where
  | panicked
  | err (e : KeyError)
  | ok (l : License)
deriving DecidableEq

/-- `License::from_key`.  The input is filtered to ASCII-alphanumeric
bytes; length and checksum are checked; the nine parts are decoded and the
per-field XOR masks removed.  All part values are nonnegative i32 values
below 2^21, so the XORs are Nat XORs. -/
def fromKey (input : List Nat) : PResult :=
  let key := input.filter isAsciiAlnum
  if key.length ≠ 25 then .err (.InvalidLength 25 key.length)
  else if verifyChecksum key = false then
    .err (.InvalidChecksum (getChecksum (key.take 24)) (key.getD 24 0))
  else
    let p0 := decPart (key.take 2)
    let p1 := decPart ((key.drop 2).take 2)
    let p2 := decPart ((key.drop 4).take 2)
    let p3 := decPart ((key.drop 6).take 2)
    let p4 := decPart ((key.drop 8).take 4)
    let p5 := decPart ((key.drop 12).take 4)
    let p6 := decPart ((key.drop 16).take 3)
    let p7 := decPart ((key.drop 19).take 3)
    let p8 := decPart ((key.drop 22).take 2)
    let editionVal : Int := (((p8 &&& 0xFF) ^^^ p0 ^^^ 0xBF : Nat) : Int) - 1
    match editionFromInt editionVal with
    | .error e => .err e
    | .ok edition =>
      let seats : Int := ((p8 ^^^ p4 ^^^ 0x4755 : Nat) : Int)
      match dateDec ((p8 ^^^ p5 ^^^ 0x7CC1 : Nat) : Int) with
      | none => .panicked
      | some purchaseDate =>
        let expVal : Nat := (p8 &&& 0xFF) ^^^ p6 ^^^ 0x3FD
        let expiryStep : Option (Option Int) :=
          if expVal = 0 then some none
          else match dateDec (expVal : Int) with
            | none => none
            | some d =>
                some (some ((daysFromCivil d : Int) - (daysFromCivil purchaseDate : Int)))
        match expiryStep with
        | none => .panicked
        | some expiry =>
          let maintenanceExpiry : Int := (((p8 &&& 0xFF) ^^^ p7 ^^^ 0x935 : Nat) : Int)
          let unk1 : Int := (((p8 &&& 0xFF) ^^^ p1 ^^^ 0xED : Nat) : Int)
          let unk2 : Int := (((p8 &&& 0xFF) ^^^ (p2 &&& 0xFFFF) ^^^ 0x77 : Nat) : Int)
          let unk3 : Int := (((p8 &&& 0xFF) ^^^ (p3 &&& 0xFFFF) ^^^ 0xDF : Nat) : Int)
          .ok ⟨edition, seats, purchaseDate, expiry, maintenanceExpiry, unk1, unk2, unk3⟩

/-- `License::generate`, with the two random alphabet symbols drawn by
`gen_pair` for positions 22-23 passed explicitly as `c1 c2`.  Returns
`none` when `enc_part` panics (possible only for out-of-range negative
field values). -/
def generateKey (L : License) (c1 c2 : Nat) : Option (List Nat) :=
  let purchase : Int := dateEnc L.purchaseDate
  let expiry : Int := toI32 (L.expiry.getD 0)
  let maintenance : Int := toI32 L.maintenanceExpiry
  let base : Nat := decPart [c1, c2]
  do
    let p0 ← encPart (xorI (xorI ((base &&& 0xFF : Nat) : Int) (editionNum L.edition + 1)) 0xBF) 2
    let p1 ← encPart (xorI (xorI ((base &&& 0xFF : Nat) : Int) L.unk1) 0xED) 2
    let p2 ← encPart (xorI (xorI ((base &&& 0xFF : Nat) : Int) L.unk2) 0x77) 2
    let p3 ← encPart (xorI (xorI ((base &&& 0xFF : Nat) : Int) L.unk3) 0xDF) 2
    let p4 ← encPart (xorI (xorI ((base &&& 0xFFFFFF : Nat) : Int) L.seats) 0x4755) 4
    let p5 ← encPart (xorI (xorI ((base &&& 0xFFFFFF : Nat) : Int) purchase) 0x7CC1) 4
    let p6 ← encPart (xorI (xorI ((base &&& 0xFF : Nat) : Int) expiry) 0x3FD) 3
    let p7 ← encPart (xorI (xorI ((base &&& 0xFF : Nat) : Int) maintenance) 0x935) 3
    let body := p0 ++ p1 ++ p2 ++ p3 ++ p4 ++ p5 ++ p6 ++ p7 ++ [c1, c2]
    let cs ← encPart ((getChecksum body : Nat) : Int) 3
    some (body ++ [cs.getD 1 0])

/-- `Vec::insert` at index `n` (every use below has `n` at most the list
length). -/
def insertAt (n : Nat) (a : α) (l : List α) : List α :=
  l.take n ++ a :: l.drop n

/-- `License::generate_string`: a fresh key, with ASCII dashes (45)
inserted at positions 20, 15, 10, 5 of the 25-byte key when `separators`
is set. -/
def generateString (L : License) (c1 c2 : Nat) (separators : Bool) : Option (List Nat) :=
  (generateKey L c1 c2).map (fun k =>
    if separators then insertAt 5 45 (insertAt 10 45 (insertAt 15 45 (insertAt 20 45 k)))
    else k)

/-- `License::with_seats`: clamp to [1, 797]. -/
def withSeats (L : License) (s : Int) : License :=
  { L with seats := clampI s 1 797 }

/-- chrono `Ord` on `Date<Utc>` (chronological, equal to lexicographic
year-month-day order on valid dates). -/
def dateLE (a b : CivilDate) : Bool :=
  a.year < b.year ||
    (a.year == b.year &&
      (a.month < b.month || (a.month == b.month && a.day ≤ b.day)))

/-- `License::is_valid_key`, with the ambient `Utc::today()` passed
explicitly.  `days_left` is computed on packed date encodings in i32
arithmetic: `(expiry_days + purchase_days) - current_days` first adds and
then subtracts in i32, and a release build wraps each operation to i32
range on overflow (a debug build would panic at exactly the same inputs),
hence the two `toI32` wraps around the addition and the subtraction.  It
stays 0 unless the purchase date lies in [2004-01-01, 2099-01-01]. -/
def isValidKey (today : CivilDate) (L : License) : Bool :=
  let inRange := dateLE ⟨2004, 1, 1⟩ L.purchaseDate && dateLE L.purchaseDate ⟨2099, 1, 1⟩
  let daysLeft : Int :=
    if inRange then
      toI32 (toI32 (toI32 (L.expiry.getD 0) + dateEnc L.purchaseDate) - dateEnc today)
    else 0
  (L.expiry.isNone || daysLeft > 0) &&
    (0 ≤ L.seats && L.seats < 797) &&
    (99 ≤ L.unk1 && L.unk1 < 990) &&
    L.unk2 ≤ 100 && L.unk3 ≤ 100 &&
    L.maintenanceExpiry < 3659

/-- The checksum exactly as the specification words it: starting from 0,
for each raw byte XOR `b << 8` into the register, then eight times shift
left by one, XORing in 0x8201 whenever bit 15 was set before the shift, in
32-bit arithmetic; finally take the low 16 bits and reduce once modulo
0x9987. -/
def csRoundSpec (r : Nat) : Nat :=
  if r.testBit 15 then ((r <<< 1) % 4294967296) ^^^ 0x8201
  else (r <<< 1) % 4294967296

def checksumSpec (l : List Nat) : Nat :=
  ((l.foldl (fun r b =>
      (List.range 8).foldl (fun s _ => csRoundSpec s) (r ^^^ (b <<< 8))) 0)
    &&& 0xFFFF) % 0x9987

/-- `k2` is `k1` with arbitrarily many non-alphanumeric ASCII bytes
inserted anywhere. -/
inductive Interleave : List Nat → List Nat → Prop where
  | nil : Interleave [] []
  | keep (c : Nat) {k1 k2 : List Nat} :
      Interleave k1 k2 → Interleave (c :: k1) (c :: k2)
  | ins (c : Nat) {k1 k2 : List Nat} :
      c < 128 → isAsciiAlnum c = false →
      Interleave k1 k2 → Interleave k1 (c :: k2)

/-- Field ranges produced by the builder (`License::new` and the `with_`
setters): seats clamped to [1, 797], purchase date clamped to
[2004-01-01, 2099-01-01] (and a real calendar day), maintenance clamped to
[1, 3658] days, salts drawn from [100, 988], [0, 99], [0, 99], and the
license expiry, when present, a day count in [1, 3658]. -/
def inBuilderRanges (L : License) : Bool :=
  decide (1 ≤ L.seats ∧ L.seats ≤ 797) &&
  dateLE ⟨2004, 1, 1⟩ L.purchaseDate && dateLE L.purchaseDate ⟨2099, 1, 1⟩ &&
  isValidYmd L.purchaseDate.year L.purchaseDate.month L.purchaseDate.day &&
  decide (1 ≤ L.maintenanceExpiry ∧ L.maintenanceExpiry ≤ 3658) &&
  decide (100 ≤ L.unk1 ∧ L.unk1 ≤ 988) &&
  decide (0 ≤ L.unk2 ∧ L.unk2 ≤ 99) &&
  decide (0 ≤ L.unk3 ∧ L.unk3 ≤ 99) &&
  L.expiry.all (fun dx => decide (1 ≤ dx ∧ dx ≤ 3658))

/-- The license that `from_key` recovers from a key generated for `L` (for
builder-range licenses; proved by `generate_parse` below): the stable
fields return unchanged, the purchase year is reduced modulo 32 above
2034 by the 5-bit year mask of `Date::dec`, and a present expiry is
re-interpreted as a packed date and re-based on the parsed purchase date,
panicking when the day count does not decode to a valid date. -/
def parseOutcome (L : License) : PResult :=
  let P2 : CivilDate :=
    ⟨2003 + (L.purchaseDate.year - 2003) % 32, L.purchaseDate.month, L.purchaseDate.day⟩
  match L.expiry with
  | none => .ok { L with purchaseDate := P2 }
  | some dx =>
    match dateDec dx with
    | none => .panicked
    | some D =>
      let days : Int := (daysFromCivil D : Int) - (daysFromCivil P2 : Int)
      .ok { L with purchaseDate := P2, expiry := some days }

/-- A license with builder-default-like fields and a chosen seat count,
used for concrete boundary checks. -/
def testLicense (s : Int) : License :=
  ⟨.Business, s, ⟨2024, 5, 15⟩, none, 100, 500, 50, 50⟩

/-- A fixed current date for the concrete validity checks. -/
def testToday : CivilDate := ⟨2024, 6, 1⟩

/-- A builder-range license whose purchase year 2035 exceeds the 31-year
reach of the 5-bit year field of the packed date format. -/
def licenseY2035 : License :=
  ⟨.Business, 5, ⟨2035, 1, 1⟩, none, 100, 500, 50, 50⟩

/-- The key generated for `licenseY2035` with salt pair D, D. -/
def keyY2035 : List Nat :=
  [70, 57, 72, 87, 49, 89, 51, 69, 68, 54, 50, 55, 68, 81, 73, 76, 68, 86,
   89, 49, 49, 70, 68, 68, 82]

/-- A 25-symbol key (F9HW1Y3ED627DM1LDVY11FDD1) with a correct checksum and
a valid edition whose purchase-date field decodes to packed value 513, that
is year 2004, month 0, day 1: `Utc.ymd` panics on it inside `Date::dec`. -/
def panicKey : List Nat :=
  [70, 57, 72, 87, 49, 89, 51, 69, 68, 54, 50, 55, 68, 77, 49, 76, 68, 86,
   89, 49, 49, 70, 68, 68, 49]

/-- A 25-byte input (F9aW1Y3ED627DTU2DVY11FDDW) whose third byte is the
lowercase letter a (97), with the checksum symbol matching: the filter
keeps the lowercase byte and the key parses successfully. -/
def lowercaseKey : List Nat :=
  [70, 57, 97, 87, 49, 89, 51, 69, 68, 54, 50, 55, 68, 84, 85, 50, 68, 86,
   89, 49, 49, 70, 68, 68, 87]

/-- A license whose public `expiry` field holds a huge day count (the
field is public and `with_license_expiry` does not clamp): with purchase
date 2099-01-01, `expiry_days + purchase_days` is 2147483647 + 49185,
which exceeds the i32 maximum, so `days_left` wraps negative and
`is_valid_key` reports invalid even though the exact-arithmetic comparison
would be satisfied. -/
def bigExpiryLicense : License :=
  ⟨.Business, 5, ⟨2099, 1, 1⟩, some 2147483647, 100, 500, 50, 50⟩

/-- A license whose public `seats` field was set to -1 directly (the field
is public in the source); `enc_part` panics on the negative part value. -/
def negSeatsLicense : License :=
  ⟨.Business, -1, ⟨2024, 5, 15⟩, none, 100, 500, 50, 50⟩

/-- The 24 data symbols of a key, written out at the Nat level: the nine
parts of the layout (each `base`-masked and XOR-masked field encoded at its
width) followed by the salt pair.  `generateKey` produces exactly this list
when the license fields are in range (`generate_parse` below). -/
def keyBodyN (base en s pd ex mt u1 u2 u3 c1 c2 : Nat) : List Nat :=
  encPartN ((base &&& 255) ^^^ (en + 1) ^^^ 191) 2 ++
  (encPartN ((base &&& 255) ^^^ u1 ^^^ 237) 2 ++
  (encPartN ((base &&& 255) ^^^ u2 ^^^ 119) 2 ++
  (encPartN ((base &&& 255) ^^^ u3 ^^^ 223) 2 ++
  (encPartN ((base &&& 16777215) ^^^ s ^^^ 18261) 4 ++
  (encPartN ((base &&& 16777215) ^^^ pd ^^^ 31937) 4 ++
  (encPartN ((base &&& 255) ^^^ ex ^^^ 1021) 3 ++
  (encPartN ((base &&& 255) ^^^ mt ^^^ 2357) 3 ++ [c1, c2])))))))

/-- A full 25-symbol key: the 24 data symbols and the middle digit of the
encoded checksum. -/
def keyOfN (base en s pd ex mt u1 u2 u3 c1 c2 : Nat) : List Nat :=
  keyBodyN base en s pd ex mt u1 u2 u3 c1 c2 ++
    [(encPartN (getChecksum (keyBodyN base en s pd ex mt u1 u2 u3 c1 c2)) 3).getD 1 0]

/-! Helper lemmas about the symbol codec. -/

theorem getD_mem (l : List Nat) (i : Nat) (d : Nat) (h : i < l.length) :
    l.getD i d ∈ l := by
  rw [List.getD_eq_getElem l d h]
  exact List.getElem_mem h

theorem getD_le (l : List Nat) (i : Nat) (d : Nat) (bound : Nat)
    (hl : ∀ x ∈ l, x ≤ bound) (hd : d ≤ bound) : l.getD i d ≤ bound := by
  by_cases h : i < l.length
  · exact hl _ (getD_mem l i d h)
  · rw [List.getD_eq_getElem?_getD, List.getElem?_eq_none (by omega)]
    exact hd

theorem charIndex_lt (c : Nat) : charIndex c < 34 := by
  unfold charIndex
  cases h : KEY_CHARS.findIdx? (fun x => x == c) with
  | none => simp
  | some i =>
    have hmem : c ∈ KEY_CHARS := by
      by_contra hc
      have : KEY_CHARS.findIdx? (fun x => x == c) = none := by
        rw [List.findIdx?_eq_none_iff]
        intro x hx
        simp only [beq_eq_false_iff_ne]
        intro hxc
        exact hc (hxc ▸ hx)
      rw [this] at h
      exact Option.noConfusion h
    have : ∀ j, KEY_CHARS.findIdx? (fun x => x == c) = some j → j < 34 := by
      fin_cases hmem <;> decide
    simpa using this i h

theorem charIndex_key (i : Nat) (h : i < 34) :
    charIndex (KEY_CHARS.getD i 0) = i := by
  revert h
  revert i
  decide

theorem encPartN_length (v n : Nat) : (encPartN v n).length = n := by
  induction n generalizing v with
  | zero => rfl
  | succ n ih => simp [encPartN, ih]

theorem encPartN_mem (v n : Nat) : ∀ c ∈ encPartN v n, c ∈ KEY_CHARS := by
  induction n generalizing v with
  | zero => simp [encPartN]
  | succ n ih =>
    intro c hc
    simp only [encPartN, List.mem_append, List.mem_singleton] at hc
    rcases hc with hc | hc
    · exact ih _ c hc
    · subst hc
      exact getD_mem KEY_CHARS (v % 34) 0 (by have := Nat.mod_lt v (y := 34) (by omega); simpa [KEY_CHARS])

theorem encPart_ofNat (n v : Nat) : encPart (Int.ofNat v) n = some (encPartN v n) := by
  induction n generalizing v with
  | zero => rfl
  | succ n ih =>
    show encPart (Int.ofNat v) (n + 1) = some (encPartN v (n + 1))
    unfold encPart
    have h1 : (Int.ofNat v).tmod 34 = Int.ofNat (v % 34) := rfl
    have h2 : (Int.ofNat v).tdiv 34 = Int.ofNat (v / 34) := rfl
    rw [h1, h2]
    simp only [Int.ofNat_nonneg, if_pos, ih, Option.map_some, Int.toNat_ofNat]
    rfl

theorem decPart_append_one (l : List Nat) (c : Nat) :
    decPart (l ++ [c]) = decPart l * 34 + charIndex c := by
  unfold decPart
  rw [List.foldl_append]
  rfl

theorem decPart_encPartN (v n : Nat) : decPart (encPartN v n) = v % 34 ^ n := by
  induction n generalizing v with
  | zero => simp [encPartN, decPart, Nat.mod_one]
  | succ n ih =>
    show decPart (encPartN (v / 34) n ++ [KEY_CHARS.getD (v % 34) 0]) = v % 34 ^ (n + 1)
    rw [decPart_append_one, ih, charIndex_key (v % 34) (Nat.mod_lt v (by omega))]
    have hpow : (34 : Nat) ^ (n + 1) = 34 * 34 ^ n := by ring
    rw [hpow, Nat.mod_mul]
    ring

theorem decPart_encPartN_of_lt (v n : Nat) (h : v < 34 ^ n) :
    decPart (encPartN v n) = v := by
  rw [decPart_encPartN, Nat.mod_eq_of_lt h]

theorem mem_alnum (c : Nat) (h : c ∈ KEY_CHARS) : isAsciiAlnum c = true := by
  fin_cases h <;> decide

theorem xor_unmask (b x m : Nat) : (b ^^^ ((b ^^^ x) ^^^ m)) ^^^ m = x := by
  rw [← Nat.xor_assoc, ← Nat.xor_assoc, Nat.xor_self, Nat.zero_xor, Nat.xor_assoc,
    Nat.xor_self, Nat.xor_zero]

theorem xorI_ofNat (a b : Nat) : xorI (Int.ofNat a) (Int.ofNat b) = Int.ofNat (a ^^^ b) := rfl

theorem toI32_of_small (n : Int) (h0 : 0 ≤ n) (h1 : n < 2147483648) : toI32 n = n := by
  unfold toI32
  omega

theorem decPart_pair (c1 c2 : Nat) :
    decPart [c1, c2] = (charIndex c1 * 34 + charIndex c2 : Nat) := by
  simp [decPart]

theorem decPart_pair_lt (c1 c2 : Nat) : decPart [c1, c2] < 1156 := by
  rw [decPart_pair]
  have h1 := charIndex_lt c1
  have h2 := charIndex_lt c2
  omega

theorem and_255_eq_mod (x : Nat) : x &&& 255 = x % 256 := by
  have := Nat.and_pow_two_sub_one_eq_mod x 8
  norm_num at this
  exact this

theorem and_mask24_of_lt (x : Nat) (h : x < 16777216) : x &&& 16777215 = x := by
  have hm := Nat.and_pow_two_sub_one_eq_mod x 24
  norm_num at hm
  rw [hm]
  exact Nat.mod_eq_of_lt h

theorem and_mask16_of_lt (x : Nat) (h : x < 65536) : x &&& 65535 = x := by
  have hm := Nat.and_pow_two_sub_one_eq_mod x 16
  norm_num at hm
  rw [hm]
  exact Nat.mod_eq_of_lt h

/-! Helper lemmas about dates. -/

theorem daysInMonth_le (y : Int) (m : Nat) : daysInMonth y m ≤ 31 := by
  unfold daysInMonth monthDays
  cases isLeap y <;> exact getD_le _ _ _ 31 (by decide) (by decide)

theorem isLeap_trunc (y : Int) (h1 : 2004 ≤ y) (h2 : y ≤ 2099) :
    isLeap (2003 + (y - 2003) % 32) = isLeap y := by
  unfold isLeap
  have e4 : (2003 + (y - 2003) % 32) % 4 = y % 4 := by omega
  have hb1 : ((2003 + (y - 2003) % 32) % 100 != 0) = true := by
    simp only [bne_iff_ne, ne_eq]
    omega
  have hb2 : (y % 100 != 0) = true := by
    simp only [bne_iff_ne, ne_eq]
    omega
  rw [e4, hb1, hb2]
  simp

theorem daysInMonth_trunc (y : Int) (m : Nat) (h1 : 2004 ≤ y) (h2 : y ≤ 2099) :
    daysInMonth (2003 + (y - 2003) % 32) m = daysInMonth y m := by
  unfold daysInMonth
  rw [isLeap_trunc y h1 h2]

theorem dateDec_dateEnc (y : Int) (m d : Nat)
    (hy1 : 2004 ≤ y) (hy2 : y ≤ 2099) (hm1 : 1 ≤ m) (hm2 : m ≤ 12)
    (hd1 : 1 ≤ d) (hd2 : d ≤ daysInMonth y m) :
    dateDec (dateEnc ⟨y, m, d⟩) = some ⟨2003 + (y - 2003) % 32, m, d⟩ := by
  have hd31 : d ≤ 31 := le_trans hd2 (daysInMonth_le y m)
  have henc : dateEnc ⟨y, m, d⟩ = (y - 2003) * 512 + ((m * 32 + d : Nat) : Int) := by
    simp only [dateEnc, clampI, clampN]
    push_cast
    omega
  rw [henc]
  simp only [dateDec]
  have hv : ((y - 2003) * 512 + ((m * 32 + d : Nat) : Int)).toNat
      = (y - 2003).toNat * 512 + (m * 32 + d) := by omega
  rw [hv]
  have h31 : ∀ x : Nat, x &&& 31 = x % 32 := by
    intro x
    have := Nat.and_pow_two_sub_one_eq_mod x 5
    norm_num at this
    exact this
  have h15 : ∀ x : Nat, x &&& 15 = x % 16 := by
    intro x
    have := Nat.and_pow_two_sub_one_eq_mod x 4
    norm_num at this
    exact this
  rw [h31, h15, h31]
  have hday : ((y - 2003).toNat * 512 + (m * 32 + d)) % 32 = d := by omega
  have hmon : ((y - 2003).toNat * 512 + (m * 32 + d)) >>> 5 % 16 = m := by omega
  have hyr : ((y - 2003).toNat * 512 + (m * 32 + d)) >>> 9 % 32 = (y - 2003).toNat % 32 := by
    omega
  rw [hday, hmon, hyr]
  have hyearI : (((y - 2003).toNat % 32 : Nat) : Int) + 2003 = 2003 + (y - 2003) % 32 := by
    omega
  rw [hyearI]
  have hvalid : isValidYmd (2003 + (y - 2003) % 32) m d = true := by
    unfold isValidYmd
    rw [daysInMonth_trunc y m hy1 hy2]
    simp only [decide_eq_true_eq]
    exact ⟨hm1, hm2, hd1, hd2⟩
  rw [hvalid]
  simp

theorem dateDec_some_facts (v : Int) (D : CivilDate) (h : dateDec v = some D) :
    2003 ≤ D.year ∧ 1 ≤ D.month ∧ D.month ≤ 12 ∧ 1 ≤ D.day := by
  simp only [dateDec] at h
  split at h
  · rename_i hvalid
    injection h with h
    subst h
    unfold isValidYmd at hvalid
    simp only [decide_eq_true_eq] at hvalid
    dsimp only
    exact ⟨by omega, hvalid.1, hvalid.2.1, hvalid.2.2.1⟩
  · exact absurd h (by simp)

theorem dateEnc_eq (y : Int) (m d : Nat)
    (hy1 : 2004 ≤ y) (hy2 : y ≤ 2099) (hm1 : 1 ≤ m) (hm2 : m ≤ 12)
    (hd1 : 1 ≤ d) (hd31 : d ≤ 31) :
    dateEnc ⟨y, m, d⟩ = (((y - 2003).toNat * 512 + (m * 32 + d) : Nat) : Int) := by
  simp only [dateEnc, clampI, clampN]
  omega

theorem dateEnc_lt (y : Int) (m d : Nat)
    (hy2 : y ≤ 2099) (hm2 : m ≤ 12) (hd31 : d ≤ 31) :
    (y - 2003).toNat * 512 + (m * 32 + d) < 65536 := by
  omega

theorem daysFromCivil_lb (D : CivilDate) (hy : 2003 ≤ D.year) (hd : 1 ≤ D.day) :
    731216 ≤ daysFromCivil D := by
  simp only [daysFromCivil]
  generalize (cumMonthDays (isLeap D.year)).getD (D.month - 1) 0 = c
  generalize hY : (D.year - 1).toNat = y
  have hy2 : 2002 ≤ y := by omega
  have hA : 500 ≤ y / 4 := by omega
  have hB : 5 ≤ y / 400 := by omega
  have hC : y / 100 ≤ 20 + (y - 2002) := by omega
  omega

set_option maxHeartbeats 4000000 in
set_option maxRecDepth 10000 in
theorem expiryGapAux : ((List.range 3659).all fun d =>
    (dateDec (d : Int)).all fun D => decide (daysFromCivil D < 731216 + d)) = true := by
  decide

theorem expiryGap (dx : Nat) (h1 : dx < 3659) (D : CivilDate)
    (hD : dateDec (dx : Int) = some D) : daysFromCivil D < 731216 + dx := by
  have h := expiryGapAux
  rw [List.all_eq_true] at h
  have h2 := h dx (List.mem_range.mpr h1)
  rw [hD] at h2
  simpa using h2

theorem dateLE_iff (a b : CivilDate) : dateLE a b = true ↔
    (a.year < b.year ∨ (a.year = b.year ∧
      (a.month < b.month ∨ (a.month = b.month ∧ a.day ≤ b.day)))) := by
  unfold dateLE
  simp [Bool.or_eq_true, Bool.and_eq_true, decide_eq_true_eq, beq_iff_eq]

theorem editionRoundtrip (e : KeyEdition) :
    ∃ en : Nat, editionNum e = Int.ofNat en ∧ en < 4 ∧
      editionFromInt ((en : Nat) : Int) = Except.ok e := by
  cases e
  · exact ⟨0, rfl, by decide, rfl⟩
  · exact ⟨1, rfl, by decide, rfl⟩
  · exact ⟨2, rfl, by decide, rfl⟩
  · exact ⟨3, rfl, by decide, rfl⟩

theorem xor_lt_pow2 (a b m n : Nat) (hm : m = 2 ^ n) (ha : a < m) (hb : b < m) :
    a ^^^ b < m := by
  subst hm
  exact Nat.xor_lt_two_pow ha hb

theorem encPart_xorI (a : Nat) (y k : Int) (b c w : Nat)
    (hy : y = Int.ofNat b) (hk : k = Int.ofNat c) :
    encPart (xorI (xorI ((a : Nat) : Int) y) k) w = some (encPartN ((a ^^^ b) ^^^ c) w) := by
  subst hy
  subst hk
  exact encPart_ofNat w ((a ^^^ b) ^^^ c)

theorem encPart_natCast (v n : Nat) : encPart ((v : Nat) : Int) n = some (encPartN v n) :=
  encPart_ofNat n v

theorem generateKey_eq (L : License) (c1 c2 : Nat)
    (en s pd ex mt u1 u2 u3 : Nat)
    (hen : editionNum L.edition = Int.ofNat en)
    (hs : L.seats = Int.ofNat s)
    (hpd : dateEnc L.purchaseDate = Int.ofNat pd)
    (hex : toI32 (L.expiry.getD 0) = Int.ofNat ex)
    (hmt : toI32 L.maintenanceExpiry = Int.ofNat mt)
    (hu1 : L.unk1 = Int.ofNat u1)
    (hu2 : L.unk2 = Int.ofNat u2)
    (hu3 : L.unk3 = Int.ofNat u3) :
    generateKey L c1 c2 = some (keyOfN (decPart [c1, c2]) en s pd ex mt u1 u2 u3 c1 c2) := by
  simp only [generateKey]
  rw [encPart_xorI (decPart [c1, c2] &&& 255) (editionNum L.edition + 1) 191 (en + 1) 191 2 (by rw [hen]; rfl) rfl]
  rw [encPart_xorI (decPart [c1, c2] &&& 255) L.unk1 237 u1 237 2 (by rw [hu1]) rfl]
  rw [encPart_xorI (decPart [c1, c2] &&& 255) L.unk2 119 u2 119 2 (by rw [hu2]) rfl]
  rw [encPart_xorI (decPart [c1, c2] &&& 255) L.unk3 223 u3 223 2 (by rw [hu3]) rfl]
  rw [encPart_xorI (decPart [c1, c2] &&& 16777215) L.seats 18261 s 18261 4 (by rw [hs]) rfl]
  rw [encPart_xorI (decPart [c1, c2] &&& 16777215) (dateEnc L.purchaseDate) 31937 pd 31937 4 (by rw [hpd]) rfl]
  rw [encPart_xorI (decPart [c1, c2] &&& 255) (toI32 (L.expiry.getD 0)) 1021 ex 1021 3 (by rw [hex]) rfl]
  rw [encPart_xorI (decPart [c1, c2] &&& 255) (toI32 L.maintenanceExpiry) 2357 mt 2357 3 (by rw [hmt]) rfl]
  simp only [Option.bind_eq_bind, Option.some_bind]
  rw [encPart_natCast]
  simp only [Option.some_bind]
  simp [keyOfN, keyBodyN, List.append_assoc]

theorem fromKey_parts (p0 p1 p2 p3 p4 p5 p6 p7 pr : List Nat) (mid : Nat)
    (h0 : p0.length = 2) (h1 : p1.length = 2) (h2 : p2.length = 2) (h3 : p3.length = 2)
    (h4 : p4.length = 4) (h5 : p5.length = 4) (h6 : p6.length = 3) (h7 : p7.length = 3)
    (h8 : pr.length = 2)
    (halnum : ∀ b ∈ (p0 ++ (p1 ++ (p2 ++ (p3 ++ (p4 ++ (p5 ++ (p6 ++ (p7 ++ pr)))))))) ++ [mid],
      isAsciiAlnum b = true)
    (hmid : mid = (encPartN (getChecksum
      (p0 ++ (p1 ++ (p2 ++ (p3 ++ (p4 ++ (p5 ++ (p6 ++ (p7 ++ pr))))))))) 3).getD 1 0) :
    fromKey ((p0 ++ (p1 ++ (p2 ++ (p3 ++ (p4 ++ (p5 ++ (p6 ++ (p7 ++ pr)))))))) ++ [mid]) =
      (match editionFromInt ((((decPart pr &&& 255) ^^^ decPart p0 ^^^ 191 : Nat) : Int) - 1) with
      | .error e => .err e
      | .ok edition =>
        match dateDec ((decPart pr ^^^ decPart p5 ^^^ 31937 : Nat) : Int) with
        | none => .panicked
        | some purchaseDate =>
          match (if (decPart pr &&& 255) ^^^ decPart p6 ^^^ 1021 = 0 then some none
                 else match dateDec (((decPart pr &&& 255) ^^^ decPart p6 ^^^ 1021 : Nat) : Int) with
                   | none => none
                   | some D => some (some ((daysFromCivil D : Int) - (daysFromCivil purchaseDate : Int)))) with
          | none => .panicked
          | some expiry =>
            .ok ⟨edition, ((decPart pr ^^^ decPart p4 ^^^ 18261 : Nat) : Int), purchaseDate, expiry,
              (((decPart pr &&& 255) ^^^ decPart p7 ^^^ 2357 : Nat) : Int),
              (((decPart pr &&& 255) ^^^ decPart p1 ^^^ 237 : Nat) : Int),
              (((decPart pr &&& 255) ^^^ (decPart p2 &&& 65535) ^^^ 119 : Nat) : Int),
              (((decPart pr &&& 255) ^^^ (decPart p3 &&& 65535) ^^^ 223 : Nat) : Int)⟩) := by
  have hT7 : (p7 ++ pr).length = 5 := by simp [List.length_append, h7, h8]
  have hT6 : (p6 ++ (p7 ++ pr)).length = 8 := by simp [List.length_append, h6, h7, h8]
  have hT5 : (p5 ++ (p6 ++ (p7 ++ pr))).length = 12 := by
    simp [List.length_append, h5, h6, h7, h8]
  have hT4 : (p4 ++ (p5 ++ (p6 ++ (p7 ++ pr)))).length = 16 := by
    simp [List.length_append, h4, h5, h6, h7, h8]
  have hT3 : (p3 ++ (p4 ++ (p5 ++ (p6 ++ (p7 ++ pr))))).length = 18 := by
    simp [List.length_append, h3, h4, h5, h6, h7, h8]
  have hT2 : (p2 ++ (p3 ++ (p4 ++ (p5 ++ (p6 ++ (p7 ++ pr)))))).length = 20 := by
    simp [List.length_append, h2, h3, h4, h5, h6, h7, h8]
  have hT1 : (p1 ++ (p2 ++ (p3 ++ (p4 ++ (p5 ++ (p6 ++ (p7 ++ pr))))))).length = 22 := by
    simp [List.length_append, h1, h2, h3, h4, h5, h6, h7, h8]
  have hL24 : (p0 ++ (p1 ++ (p2 ++ (p3 ++ (p4 ++ (p5 ++ (p6 ++ (p7 ++ pr)))))))).length = 24 := by
    simp [List.length_append, h0, h1, h2, h3, h4, h5, h6, h7, h8]
  set L24 := p0 ++ (p1 ++ (p2 ++ (p3 ++ (p4 ++ (p5 ++ (p6 ++ (p7 ++ pr))))))) with hLdef
  set K := L24 ++ [mid] with hKdef
  have hKlen : K.length = 25 := by
    rw [hKdef, List.length_append, hL24]
    rfl
  have hfilter : K.filter isAsciiAlnum = K := List.filter_eq_self.mpr halnum
  -- segment drops
  have hd2 : K.drop 2 = (p1 ++ (p2 ++ (p3 ++ (p4 ++ (p5 ++ (p6 ++ (p7 ++ pr))))))) ++ [mid] := by
    rw [hKdef, List.drop_append_of_le_length (by omega), hLdef, List.drop_left' h0]
  have hdL4 : L24.drop 4 = p2 ++ (p3 ++ (p4 ++ (p5 ++ (p6 ++ (p7 ++ pr))))) := by
    rw [show (4 : Nat) = 2 + 2 from rfl, ← List.drop_drop, hLdef, List.drop_left' h0,
      List.drop_left' h1]
  have hd4 : K.drop 4 = (p2 ++ (p3 ++ (p4 ++ (p5 ++ (p6 ++ (p7 ++ pr)))))) ++ [mid] := by
    rw [hKdef, List.drop_append_of_le_length (by omega), hdL4]
  have hdL6 : L24.drop 6 = p3 ++ (p4 ++ (p5 ++ (p6 ++ (p7 ++ pr)))) := by
    rw [show (6 : Nat) = 4 + 2 from rfl, ← List.drop_drop, hdL4, List.drop_left' h2]
  have hd6 : K.drop 6 = (p3 ++ (p4 ++ (p5 ++ (p6 ++ (p7 ++ pr))))) ++ [mid] := by
    rw [hKdef, List.drop_append_of_le_length (by omega), hdL6]
  have hdL8 : L24.drop 8 = p4 ++ (p5 ++ (p6 ++ (p7 ++ pr))) := by
    rw [show (8 : Nat) = 6 + 2 from rfl, ← List.drop_drop, hdL6, List.drop_left' h3]
  have hd8 : K.drop 8 = (p4 ++ (p5 ++ (p6 ++ (p7 ++ pr)))) ++ [mid] := by
    rw [hKdef, List.drop_append_of_le_length (by omega), hdL8]
  have hdL12 : L24.drop 12 = p5 ++ (p6 ++ (p7 ++ pr)) := by
    rw [show (12 : Nat) = 8 + 4 from rfl, ← List.drop_drop, hdL8, List.drop_left' h4]
  have hd12 : K.drop 12 = (p5 ++ (p6 ++ (p7 ++ pr))) ++ [mid] := by
    rw [hKdef, List.drop_append_of_le_length (by omega), hdL12]
  have hdL16 : L24.drop 16 = p6 ++ (p7 ++ pr) := by
    rw [show (16 : Nat) = 12 + 4 from rfl, ← List.drop_drop, hdL12, List.drop_left' h5]
  have hd16 : K.drop 16 = (p6 ++ (p7 ++ pr)) ++ [mid] := by
    rw [hKdef, List.drop_append_of_le_length (by omega), hdL16]
  have hdL19 : L24.drop 19 = p7 ++ pr := by
    rw [show (19 : Nat) = 16 + 3 from rfl, ← List.drop_drop, hdL16, List.drop_left' h6]
  have hd19 : K.drop 19 = (p7 ++ pr) ++ [mid] := by
    rw [hKdef, List.drop_append_of_le_length (by omega), hdL19]
  have hdL22 : L24.drop 22 = pr := by
    rw [show (22 : Nat) = 19 + 3 from rfl, ← List.drop_drop, hdL19, List.drop_left' h7]
  have hd22 : K.drop 22 = pr ++ [mid] := by
    rw [hKdef, List.drop_append_of_le_length (by omega), hdL22]
  -- segment takes
  have take_full : ∀ (l : List Nat) (n : Nat), l.length = n → l.take n = l := by
    intro l n h
    rw [← h]
    exact List.take_length l
  have ht0 : K.take 2 = p0 := by
    rw [hKdef, List.take_append_of_le_length (by omega), hLdef,
      List.take_append_of_le_length (by omega), take_full p0 2 h0]
  have ht2 : (K.drop 2).take 2 = p1 := by
    rw [hd2, List.take_append_of_le_length (by omega),
      List.take_append_of_le_length (by omega), take_full p1 2 h1]
  have ht4 : (K.drop 4).take 2 = p2 := by
    rw [hd4, List.take_append_of_le_length (by omega),
      List.take_append_of_le_length (by omega), take_full p2 2 h2]
  have ht6 : (K.drop 6).take 2 = p3 := by
    rw [hd6, List.take_append_of_le_length (by omega),
      List.take_append_of_le_length (by omega), take_full p3 2 h3]
  have ht8 : (K.drop 8).take 4 = p4 := by
    rw [hd8, List.take_append_of_le_length (by omega),
      List.take_append_of_le_length (by omega), take_full p4 4 h4]
  have ht12 : (K.drop 12).take 4 = p5 := by
    rw [hd12, List.take_append_of_le_length (by omega),
      List.take_append_of_le_length (by omega), take_full p5 4 h5]
  have ht16 : (K.drop 16).take 3 = p6 := by
    rw [hd16, List.take_append_of_le_length (by omega),
      List.take_append_of_le_length (by omega), take_full p6 3 h6]
  have ht19 : (K.drop 19).take 3 = p7 := by
    rw [hd19, List.take_append_of_le_length (by omega),
      List.take_append_of_le_length (by omega), take_full p7 3 h7]
  have ht22 : (K.drop 22).take 2 = pr := by
    rw [hd22, List.take_append_of_le_length (by omega), take_full pr 2 h8]
  have ht24 : K.take 24 = L24 := by
    rw [hKdef, List.take_append_of_le_length (by omega), take_full L24 24 hL24]
  have hg24 : K.getD 24 0 = mid := by
    rw [hKdef, List.getD_eq_getElem?_getD, List.getElem?_append_right (by omega)]
    simp [hL24]
  have hverify : verifyChecksum K = true := by
    simp only [verifyChecksum, hKlen, ht24, hg24, hmid]
    simp
  simp only [fromKey, hfilter]
  rw [if_neg (by simp [hKlen])]
  rw [if_neg (by simp [hverify])]
  rw [ht0, ht2, ht4, ht6, ht8, ht12, ht16, ht19, ht22]

theorem keyBodyN_length (base en s pd ex mt u1 u2 u3 c1 c2 : Nat) :
    (keyBodyN base en s pd ex mt u1 u2 u3 c1 c2).length = 24 := by
  simp [keyBodyN, List.length_append, encPartN_length]

theorem keyOfN_length (base en s pd ex mt u1 u2 u3 c1 c2 : Nat) :
    (keyOfN base en s pd ex mt u1 u2 u3 c1 c2).length = 25 := by
  rw [keyOfN, List.length_append, keyBodyN_length]
  rfl

theorem keyOfN_mem (base en s pd ex mt u1 u2 u3 c1 c2 : Nat)
    (hc1 : c1 ∈ KEY_CHARS) (hc2 : c2 ∈ KEY_CHARS) :
    ∀ b ∈ keyOfN base en s pd ex mt u1 u2 u3 c1 c2, b ∈ KEY_CHARS := by
  intro b hb
  simp only [keyOfN, keyBodyN, List.mem_append, List.mem_cons, List.not_mem_nil, or_false,
    List.mem_singleton] at hb
  rcases hb with ((hb | hb | hb | hb | hb | hb | hb | hb | hb) | hb)
  · exact encPartN_mem _ _ b hb
  · exact encPartN_mem _ _ b hb
  · exact encPartN_mem _ _ b hb
  · exact encPartN_mem _ _ b hb
  · exact encPartN_mem _ _ b hb
  · exact encPartN_mem _ _ b hb
  · exact encPartN_mem _ _ b hb
  · exact encPartN_mem _ _ b hb
  · rcases hb with hb | hb
    · exact hb ▸ hc1
    · exact hb ▸ hc2
  · subst hb
    exact encPartN_mem _ _ _ (getD_mem _ _ _ (by rw [encPartN_length]; omega))

theorem fromKey_keyOfN (base en s pd ex mt u1 u2 u3 c1 c2 : Nat)
    (hc1 : c1 ∈ KEY_CHARS) (hc2 : c2 ∈ KEY_CHARS)
    (hdec : decPart [c1, c2] = base)
    (hbase : base < 1156)
    (hen : en < 4) (hs : s < 2048) (hpd : pd < 65536)
    (hex : ex < 4096) (hmt : mt < 4096)
    (hu1 : u1 < 1024) (hu2 : u2 < 256) (hu3 : u3 < 256) :
    fromKey (keyOfN base en s pd ex mt u1 u2 u3 c1 c2) =
      (match editionFromInt ((en : Nat) : Int) with
      | .error e => .err e
      | .ok edition =>
        match dateDec ((pd : Nat) : Int) with
        | none => .panicked
        | some purchaseDate =>
          match (if ex = 0 then some none
                 else match dateDec ((ex : Nat) : Int) with
                   | none => none
                   | some D => some (some ((daysFromCivil D : Int) - (daysFromCivil purchaseDate : Int)))) with
          | none => .panicked
          | some expiry =>
            .ok ⟨edition, ((s : Nat) : Int), purchaseDate, expiry, ((mt : Nat) : Int),
              ((u1 : Nat) : Int), ((u2 : Nat) : Int), ((u3 : Nat) : Int)⟩) := by
  have hb8lt : base &&& 255 < 256 := by
    have := @Nat.and_le_right base 255
    omega
  have hb24 : base &&& 16777215 = base := and_mask24_of_lt base (by omega)
  have hv0 : (base &&& 255) ^^^ (en + 1) ^^^ 191 < 34 ^ 2 := by
    have ha : (base &&& 255) ^^^ (en + 1) < 256 :=
      xor_lt_pow2 _ _ 256 8 (by norm_num) hb8lt (by omega)
    have hb : ((base &&& 255) ^^^ (en + 1)) ^^^ 191 < 256 :=
      xor_lt_pow2 _ _ 256 8 (by norm_num) ha (by norm_num)
    omega
  have hv1 : (base &&& 255) ^^^ u1 ^^^ 237 < 34 ^ 2 := by
    have ha : (base &&& 255) ^^^ u1 < 1024 :=
      xor_lt_pow2 _ _ 1024 10 (by norm_num) (by omega) (by omega)
    have hb : ((base &&& 255) ^^^ u1) ^^^ 237 < 1024 :=
      xor_lt_pow2 _ _ 1024 10 (by norm_num) ha (by norm_num)
    omega
  have hv2 : (base &&& 255) ^^^ u2 ^^^ 119 < 34 ^ 2 := by
    have ha : (base &&& 255) ^^^ u2 < 256 :=
      xor_lt_pow2 _ _ 256 8 (by norm_num) hb8lt hu2
    have hb : ((base &&& 255) ^^^ u2) ^^^ 119 < 256 :=
      xor_lt_pow2 _ _ 256 8 (by norm_num) ha (by norm_num)
    omega
  have hv3 : (base &&& 255) ^^^ u3 ^^^ 223 < 34 ^ 2 := by
    have ha : (base &&& 255) ^^^ u3 < 256 :=
      xor_lt_pow2 _ _ 256 8 (by norm_num) hb8lt hu3
    have hb : ((base &&& 255) ^^^ u3) ^^^ 223 < 256 :=
      xor_lt_pow2 _ _ 256 8 (by norm_num) ha (by norm_num)
    omega
  have hv4 : (base &&& 16777215) ^^^ s ^^^ 18261 < 34 ^ 4 := by
    rw [hb24]
    have ha : base ^^^ s < 32768 :=
      xor_lt_pow2 _ _ 32768 15 (by norm_num) (by omega) (by omega)
    have hb : (base ^^^ s) ^^^ 18261 < 32768 :=
      xor_lt_pow2 _ _ 32768 15 (by norm_num) ha (by norm_num)
    norm_num
    omega
  have hv5 : (base &&& 16777215) ^^^ pd ^^^ 31937 < 34 ^ 4 := by
    rw [hb24]
    have ha : base ^^^ pd < 65536 :=
      xor_lt_pow2 _ _ 65536 16 (by norm_num) (by omega) hpd
    have hb : (base ^^^ pd) ^^^ 31937 < 65536 :=
      xor_lt_pow2 _ _ 65536 16 (by norm_num) ha (by norm_num)
    norm_num
    omega
  have hv6 : (base &&& 255) ^^^ ex ^^^ 1021 < 34 ^ 3 := by
    have ha : (base &&& 255) ^^^ ex < 4096 :=
      xor_lt_pow2 _ _ 4096 12 (by norm_num) (by omega) hex
    have hb : ((base &&& 255) ^^^ ex) ^^^ 1021 < 4096 :=
      xor_lt_pow2 _ _ 4096 12 (by norm_num) ha (by norm_num)
    norm_num
    omega
  have hv7 : (base &&& 255) ^^^ mt ^^^ 2357 < 34 ^ 3 := by
    have ha : (base &&& 255) ^^^ mt < 4096 :=
      xor_lt_pow2 _ _ 4096 12 (by norm_num) (by omega) hmt
    have hb : ((base &&& 255) ^^^ mt) ^^^ 2357 < 4096 :=
      xor_lt_pow2 _ _ 4096 12 (by norm_num) ha (by norm_num)
    norm_num
    omega
  have halnum : ∀ b ∈ keyOfN base en s pd ex mt u1 u2 u3 c1 c2, isAsciiAlnum b = true :=
    fun b hb => mem_alnum b (keyOfN_mem base en s pd ex mt u1 u2 u3 c1 c2 hc1 hc2 b hb)
  simp only [keyOfN, keyBodyN] at halnum ⊢
  rw [fromKey_parts _ _ _ _ _ _ _ _ [c1, c2] _
    (encPartN_length _ _) (encPartN_length _ _) (encPartN_length _ _) (encPartN_length _ _)
    (encPartN_length _ _) (encPartN_length _ _) (encPartN_length _ _) (encPartN_length _ _)
    rfl halnum rfl]
  rw [hdec]
  rw [decPart_encPartN_of_lt _ _ hv0, decPart_encPartN_of_lt _ _ hv1,
    decPart_encPartN_of_lt _ _ hv2, decPart_encPartN_of_lt _ _ hv3,
    decPart_encPartN_of_lt _ _ hv4, decPart_encPartN_of_lt _ _ hv5,
    decPart_encPartN_of_lt _ _ hv6, decPart_encPartN_of_lt _ _ hv7]
  rw [hb24]
  rw [xor_unmask (base &&& 255) (en + 1) 191]
  rw [xor_unmask base s 18261, xor_unmask base pd 31937]
  rw [xor_unmask (base &&& 255) ex 1021]
  rw [xor_unmask (base &&& 255) mt 2357]
  rw [xor_unmask (base &&& 255) u1 237]
  rw [and_mask16_of_lt ((base &&& 255) ^^^ u2 ^^^ 119) (by omega),
    and_mask16_of_lt ((base &&& 255) ^^^ u3 ^^^ 223) (by omega)]
  rw [xor_unmask (base &&& 255) u2 119]
  rw [xor_unmask (base &&& 255) u3 223]
  rw [show ((en + 1 : Nat) : Int) - 1 = ((en : Nat) : Int) by push_cast; ring]

theorem dateLE_lower (P : CivilDate) (h : dateLE ⟨2004, 1, 1⟩ P = true) : 2004 ≤ P.year := by
  simp only [dateLE, Bool.or_eq_true, Bool.and_eq_true, decide_eq_true_eq, beq_iff_eq] at h
  rcases h with h | ⟨h, _⟩ <;> omega

theorem dateLE_upper (P : CivilDate) (h : dateLE P ⟨2099, 1, 1⟩ = true) : P.year ≤ 2099 := by
  simp only [dateLE, Bool.or_eq_true, Bool.and_eq_true, decide_eq_true_eq, beq_iff_eq] at h
  rcases h with h | ⟨h, _⟩ <;> omega

theorem generate_parse (L : License) (c1 c2 : Nat)
    (hc1 : c1 ∈ KEY_CHARS) (hc2 : c2 ∈ KEY_CHARS)
    (hL : inBuilderRanges L = true) :
    ∃ k, generateKey L c1 c2 = some k ∧ k.length = 25 ∧
      (∀ b ∈ k, b ∈ KEY_CHARS) ∧ fromKey k = parseOutcome L := by
  simp only [inBuilderRanges, Bool.and_eq_true, decide_eq_true_eq] at hL
  obtain ⟨⟨⟨⟨⟨⟨⟨⟨hA, hB⟩, hC⟩, hD⟩, hE⟩, hF⟩, hG⟩, hH⟩, hI⟩ := hL
  have hy1 : 2004 ≤ L.purchaseDate.year := dateLE_lower _ hB
  have hy2 : L.purchaseDate.year ≤ 2099 := dateLE_upper _ hC
  simp only [isValidYmd, decide_eq_true_eq] at hD
  obtain ⟨hm1, hm2, hd1, hdle⟩ := hD
  have hd31 : L.purchaseDate.day ≤ 31 := le_trans hdle (daysInMonth_le _ _)
  obtain ⟨enN, henEq, henLt, henRt⟩ := editionRoundtrip L.edition
  have hsEq : L.seats = ((L.seats.toNat : Nat) : Int) := by omega
  have hmtEq : toI32 L.maintenanceExpiry = ((L.maintenanceExpiry.toNat : Nat) : Int) := by
    rw [toI32_of_small L.maintenanceExpiry (by omega) (by omega)]
    omega
  have hu1Eq : L.unk1 = ((L.unk1.toNat : Nat) : Int) := by omega
  have hu2Eq : L.unk2 = ((L.unk2.toNat : Nat) : Int) := by omega
  have hu3Eq : L.unk3 = ((L.unk3.toNat : Nat) : Int) := by omega
  have hpdEq : dateEnc L.purchaseDate =
      (((L.purchaseDate.year - 2003).toNat * 512 +
        (L.purchaseDate.month * 32 + L.purchaseDate.day) : Nat) : Int) :=
    dateEnc_eq L.purchaseDate.year L.purchaseDate.month L.purchaseDate.day
      hy1 hy2 hm1 hm2 hd1 hd31
  have hexN : ∃ exN : Nat, exN ≤ 3658 ∧ toI32 (L.expiry.getD 0) = ((exN : Nat) : Int) ∧
      ((L.expiry = none ∧ exN = 0) ∨
        (L.expiry = some ((exN : Nat) : Int) ∧ 1 ≤ exN)) := by
    rcases hLo : L.expiry with _ | dx
    · refine ⟨0, by omega, ?_, Or.inl ⟨rfl, rfl⟩⟩
      show toI32 0 = ((0 : Nat) : Int)
      unfold toI32
      decide
    · rw [hLo] at hI
      simp only [Option.all_some, decide_eq_true_eq] at hI
      refine ⟨dx.toNat, by omega, ?_, Or.inr ⟨by simp only [Option.some.injEq]; omega, by omega⟩⟩
      show toI32 dx = ((dx.toNat : Nat) : Int)
      rw [toI32_of_small dx (by omega) (by omega)]
      omega
  obtain ⟨exN, hexLe, hexEq, hexCase⟩ := hexN
  have hgen := generateKey_eq L c1 c2 enN L.seats.toNat
    ((L.purchaseDate.year - 2003).toNat * 512 +
      (L.purchaseDate.month * 32 + L.purchaseDate.day))
    exN L.maintenanceExpiry.toNat L.unk1.toNat L.unk2.toNat L.unk3.toNat
    henEq hsEq hpdEq hexEq hmtEq hu1Eq hu2Eq hu3Eq
  refine ⟨_, hgen, keyOfN_length _ _ _ _ _ _ _ _ _ _ _,
    keyOfN_mem _ _ _ _ _ _ _ _ _ _ _ hc1 hc2, ?_⟩
  rw [fromKey_keyOfN _ _ _ _ _ _ _ _ _ _ _ hc1 hc2 rfl (decPart_pair_lt c1 c2)
    henLt (by omega) (by omega) (by omega) (by omega) (by omega) (by omega) (by omega)]
  rw [henRt]
  have hdd : dateDec ((((L.purchaseDate.year - 2003).toNat * 512 +
      (L.purchaseDate.month * 32 + L.purchaseDate.day) : Nat) : Int)) =
      some ⟨2003 + (L.purchaseDate.year - 2003) % 32,
        L.purchaseDate.month, L.purchaseDate.day⟩ := by
    rw [← hpdEq]
    exact dateDec_dateEnc L.purchaseDate.year L.purchaseDate.month L.purchaseDate.day
      hy1 hy2 hm1 hm2 hd1 hdle
  rw [hdd]
  rcases hexCase with ⟨hLo, hex0⟩ | ⟨hLo, hex1⟩
  · subst hex0
    simp only [parseOutcome, hLo]
    rw [if_pos trivial]
    rw [show ((L.seats.toNat : Nat) : Int) = L.seats by omega,
      show ((L.maintenanceExpiry.toNat : Nat) : Int) = L.maintenanceExpiry by omega,
      show ((L.unk1.toNat : Nat) : Int) = L.unk1 by omega,
      show ((L.unk2.toNat : Nat) : Int) = L.unk2 by omega,
      show ((L.unk3.toNat : Nat) : Int) = L.unk3 by omega]
  · simp only [parseOutcome, hLo]
    rw [if_neg (show ¬(exN = 0) by omega)]
    rcases hDD : dateDec ((exN : Nat) : Int) with _ | D
    · rfl
    · rw [show ((L.seats.toNat : Nat) : Int) = L.seats by omega,
        show ((L.maintenanceExpiry.toNat : Nat) : Int) = L.maintenanceExpiry by omega,
        show ((L.unk1.toNat : Nat) : Int) = L.unk1 by omega,
        show ((L.unk2.toNat : Nat) : Int) = L.unk2 by omega,
        show ((L.unk3.toNat : Nat) : Int) = L.unk3 by omega]
set_option maxRecDepth 40000 in
/-- Claim C3 counterexample: with purchase date 2099-01-01 and an expiry
of 2147483647 days (the expiry field is public and the builder does not
clamp it), every conjunct of the claimed right-hand side holds, including
the packed-encoding comparison enc(today) < expiry + enc(purchase), yet
is_valid_key returns false: the i32 sum expiry_days + purchase_days
overflows and days_left wraps negative. -/
theorem C3_overflow_counterexample :
    isValidKey testToday bigExpiryLicense = false ∧
    ((bigExpiryLicense.expiry = none ∨
      (dateLE ⟨2004, 1, 1⟩ bigExpiryLicense.purchaseDate = true ∧
        dateLE bigExpiryLicense.purchaseDate ⟨2099, 1, 1⟩ = true ∧
        dateEnc testToday <
          toI32 (bigExpiryLicense.expiry.getD 0) + dateEnc bigExpiryLicense.purchaseDate)) ∧
     (0 ≤ bigExpiryLicense.seats ∧ bigExpiryLicense.seats ≤ 796) ∧
     (99 ≤ bigExpiryLicense.unk1 ∧ bigExpiryLicense.unk1 ≤ 989) ∧
     bigExpiryLicense.unk2 ≤ 100 ∧ bigExpiryLicense.unk3 ≤ 100 ∧
     bigExpiryLicense.maintenanceExpiry < 3659) := by
  refine ⟨by decide, by decide⟩

/-- Claim C3 (corrected): is_valid_key returns true iff seats lies in
[0, 796], salt1 in [99, 989], salt2 and salt3 are at most 100, the
maintenance expiry is under 3659 days, and either the expiry is absent or
(the purchase date lies in [2004-01-01, 2099-01-01] and the days-left
value is positive, where days-left is the packed-encoding expression
(expiry_days + enc(purchase)) - enc(today) computed in wrapping i32
arithmetic, the purchase-date range being required only when an expiry is
present).  The wrapping is forced by the counterexample above; at exact
arithmetic the comparison agrees whenever the i32 sums do not overflow. -/
theorem C3_isValidKey_wrapped_characterization (today : CivilDate) (L : License) :
    isValidKey today L = true ↔
      ((L.expiry = none ∨
        (dateLE ⟨2004, 1, 1⟩ L.purchaseDate = true ∧ dateLE L.purchaseDate ⟨2099, 1, 1⟩ = true ∧
          0 < toI32 (toI32 (toI32 (L.expiry.getD 0) + dateEnc L.purchaseDate) - dateEnc today))) ∧
       (0 ≤ L.seats ∧ L.seats ≤ 796) ∧
       (99 ≤ L.unk1 ∧ L.unk1 ≤ 989) ∧
       L.unk2 ≤ 100 ∧ L.unk3 ≤ 100 ∧
       L.maintenanceExpiry < 3659) := by
  rcases hE : L.expiry with _ | dx
  · simp only [isValidKey, hE, Option.isNone_none, Bool.true_or, Bool.and_eq_true,
      decide_eq_true_eq, eq_self_iff_true, true_or, true_and]
    omega
  · by_cases h1 : dateLE ⟨2004, 1, 1⟩ L.purchaseDate = true
    · by_cases h2 : dateLE L.purchaseDate ⟨2099, 1, 1⟩ = true
      · simp only [isValidKey, hE, Option.isNone_some, Bool.false_or, h1, h2, Bool.and_self,
          if_true, Option.getD_some, Bool.and_eq_true, decide_eq_true_eq,
          Option.some_ne_none, false_or, eq_self_iff_true, true_and]
        omega
      · have h2f : dateLE L.purchaseDate ⟨2099, 1, 1⟩ = false := by
          revert h2
          cases dateLE L.purchaseDate ⟨2099, 1, 1⟩ <;> simp
        simp only [isValidKey, hE, Option.isNone_some, Bool.false_or, h2f, Bool.and_false,
          if_false, Option.getD_some, Bool.and_eq_true, decide_eq_true_eq,
          Option.some_ne_none, false_or]
        simp
    · have h1f : dateLE ⟨2004, 1, 1⟩ L.purchaseDate = false := by
        revert h1
        cases dateLE ⟨2004, 1, 1⟩ L.purchaseDate <;> simp
      simp only [isValidKey, hE, Option.isNone_some, Bool.false_or, h1f, Bool.false_and,
        if_false, Option.getD_some, Bool.and_eq_true, decide_eq_true_eq,
        Option.some_ne_none, false_or]
      simp

theorem csRound_eq (r : Nat) : csRound r = csRoundSpec r := by
  unfold csRound csRoundSpec
  have h := Nat.and_two_pow r 15
  norm_num at h
  cases ht : r.testBit 15
  · rw [ht] at h
    simp only [Bool.toNat_false, zero_mul] at h
    simp [h]
  · rw [ht] at h
    simp only [Bool.toNat_true, one_mul] at h
    simp [h]

theorem csFoldByte_eq : csFoldByte = fun r b =>
    (List.range 8).foldl (fun s _ => csRoundSpec s) (r ^^^ (b <<< 8)) := by
  funext r b
  unfold csFoldByte
  simp only [show List.range 8 = [0, 1, 2, 3, 4, 5, 6, 7] from rfl,
    List.foldl_cons, List.foldl_nil, csRound_eq]

theorem getChecksum_eq_spec (bs : List Nat) : getChecksum bs = checksumSpec bs := by
  unfold getChecksum checksumSpec
  rw [csFoldByte_eq]

/-- Claim C7 (confirmed): get_checksum equals the reference algorithm
worded by the specification (XOR each raw byte shifted left 8 into a
32-bit register, eight shift steps XORing 0x8201 whenever bit 15 was set
before the shift, then low 16 bits reduced once modulo 0x9987), and
verify_checksum on a 25-byte key accepts iff the middle of the three
base-34 checksum symbols of bytes 0..24 equals byte 24. -/
theorem C7_checksum_reference :
    (∀ bs : List Nat, getChecksum bs = checksumSpec bs) ∧
    (∀ k : List Nat, k.length = 25 →
      (verifyChecksum k = true ↔
        (encPartN (getChecksum (k.take 24)) 3).getD 1 0 = k.getD 24 0)) := by
  refine ⟨getChecksum_eq_spec, ?_⟩
  intro k hk
  unfold verifyChecksum
  rw [hk]
  simp [beq_iff_eq]

theorem interleave_filter (k1 k2 : List Nat) (h : Interleave k1 k2) :
    k2.filter isAsciiAlnum = k1.filter isAsciiAlnum := by
  induction h with
  | nil => rfl
  | keep c h ih => simp [List.filter_cons, ih]
  | ins c hc hna h ih => simp [List.filter_cons, hna, ih]

theorem fromKey_congr_filter (k1 k2 : List Nat)
    (h : k1.filter isAsciiAlnum = k2.filter isAsciiAlnum) : fromKey k1 = fromKey k2 := by
  unfold fromKey
  rw [h]

/-- Claim C8 (confirmed): interleaving a key with non-alphanumeric ASCII
bytes does not change the result of from_key, and any input whose count of
ASCII-alphanumeric bytes differs from 25 fails with
InvalidLength(expected 25, found n). -/
theorem C8_sanitization :
    (∀ k1 k2 : List Nat, Interleave k1 k2 → fromKey k2 = fromKey k1) ∧
    (∀ input : List Nat, (input.filter isAsciiAlnum).length ≠ 25 →
      fromKey input = PResult.err (KeyError.InvalidLength 25 (input.filter isAsciiAlnum).length)) := by
  constructor
  · intro k1 k2 h
    exact fromKey_congr_filter k2 k1 (interleave_filter k1 k2 h)
  · intro input h
    simp only [fromKey]
    rw [if_pos h]

set_option maxRecDepth 40000 in
/-- Claim C10 (confirmed): sanitization keeps every ASCII-alphanumeric
byte including lowercase letters (which are not in the uppercase-only
alphabet), such bytes count toward the required 25 symbols, dec_part
decodes any non-alphabet byte as digit 0, and a concrete 25-symbol input
containing a lowercase letter parses successfully because its checksum
matches. -/
theorem C10_lowercase_bytes :
    (∀ c : Nat, 97 ≤ c → c ≤ 122 → isAsciiAlnum c = true) ∧
    (∀ c : Nat, c ∉ KEY_CHARS → charIndex c = 0) ∧
    (lowercaseKey.filter isAsciiAlnum).length = 25 ∧ 97 ∈ lowercaseKey ∧
    fromKey lowercaseKey = PResult.ok ⟨.Business, 5, ⟨2024, 5, 15⟩, none, 100, 228, 50, 50⟩ := by
  refine ⟨?_, ?_, by decide, by decide, by decide⟩
  · intro c h1 h2
    simp only [isAsciiAlnum, decide_eq_true_eq]
    omega
  · intro c hc
    unfold charIndex
    rw [List.findIdx?_eq_none_iff.mpr ?_]
    · rfl
    · intro x hx
      simp only [beq_eq_false_iff_ne, ne_eq]
      intro hxc
      exact hc (hxc ▸ hx)

set_option maxRecDepth 40000 in
/-- Claim C2 (code bug): from_key does NOT always return Ok or one of the
three errors: on the 25-symbol key F9HW1Y3ED627DM1LDVY11FDD1, whose
checksum is valid and whose edition decodes to Business, the purchase-date
field decodes to packed value 513 (year 2004, month 0, day 1), and
Utc.ymd panics inside Date::dec.  The claim (and the spec) say no other
failure mode exists; the code has this panic. -/
theorem C2_fromKey_panics_on_invalid_decoded_date : verifyChecksum panicKey = true ∧ fromKey panicKey = PResult.panicked := by
  refine ⟨by decide, by decide⟩

set_option maxRecDepth 40000 in
/-- Claim C6 counterexample: with all other fields in range, a license
with 797 seats FAILS is_valid_key (the validator range is [0, 797)), and a
license with 0 seats PASSES it, contradicting the claim on both points. -/
theorem C6_seat_boundary_counterexample :
    isValidKey testToday (testLicense 797) = false ∧
    isValidKey testToday (testLicense 0) = true := by
  refine ⟨by decide, by decide⟩

set_option maxRecDepth 40000 in
/-- Claim C6 (corrected): seats 1 and 797 both generate a 25-byte key;
seats 1 validates but seats 797 fails is_valid_key; seats 0 passes
is_valid_key; with_seats(798) clamps the stored seats to 797. -/
theorem C6_seat_boundaries :
    (generateKey (testLicense 1) 68 68).isSome = true ∧
    ((generateKey (testLicense 1) 68 68).getD []).length = 25 ∧
    (generateKey (testLicense 797) 68 68).isSome = true ∧
    ((generateKey (testLicense 797) 68 68).getD []).length = 25 ∧
    isValidKey testToday (testLicense 1) = true ∧
    isValidKey testToday (testLicense 797) = false ∧
    isValidKey testToday (testLicense 0) = true ∧
    (withSeats (testLicense 1) 798).seats = 797 := by
  refine ⟨by decide, by decide, by decide, by decide, by decide, by decide, by decide, by decide⟩

set_option maxRecDepth 40000 in
/-- Claim C4 counterexample: for 2035-01-01 (year offset 32, masked to 0
by the 5-bit year field) decoding the encoding yields 2003-01-01, not the
original date. -/
theorem C4_dateDec_dateEnc_counterexample :
    dateDec (dateEnc ⟨2035, 1, 1⟩) = some ⟨2003, 1, 1⟩ ∧
    dateDec (dateEnc ⟨2035, 1, 1⟩) ≠ some ⟨2035, 1, 1⟩ := by
  refine ⟨by decide, by decide⟩

/-- Claim C4 (corrected): date decoding inverts date encoding for real
calendar days with year in [2004, 2034] (not 2099: the 5-bit year mask
truncates offsets above 31), month in [1, 12], day in [1, 31]. -/
theorem C4_dateDec_dateEnc_inverse (y : Int) (m d : Nat) (hy1 : 2004 ≤ y) (hy2 : y ≤ 2034)
    (hm1 : 1 ≤ m) (hm2 : m ≤ 12) (hd1 : 1 ≤ d) (hd2 : d ≤ daysInMonth y m) :
    dateDec (dateEnc ⟨y, m, d⟩) = some ⟨y, m, d⟩ := by
  rw [dateDec_dateEnc y m d hy1 (by omega) hm1 hm2 hd1 hd2]
  have : 2003 + (y - 2003) % 32 = y := by omega
  rw [this]

/-- Witness for C4 at the concrete date 2020-06-15. -/
theorem C4_dateDec_dateEnc_inverse_witness : dateDec (dateEnc ⟨2020, 6, 15⟩) = some ⟨2020, 6, 15⟩ :=
  C4_dateDec_dateEnc_inverse 2020 6 15 (by decide) (by decide) (by decide) (by decide) (by decide) (by decide)

set_option maxRecDepth 40000 in
/-- Claim C1 counterexample: the builder-range license with purchase date
2035-01-01 (and expiry absent) generates, with salt pair D D, the key
F9HW1Y3ED627DQILDVY11FDDR, which parses back successfully but with
purchase date 2003-01-01: the purchase_date field does not round-trip, so
the claimed round-trip fails inside the claimed ranges. -/
theorem C1_year2035_counterexample :
    inBuilderRanges licenseY2035 = true ∧
    generateKey licenseY2035 68 68 = some keyY2035 ∧
    fromKey keyY2035 = PResult.ok { licenseY2035 with purchaseDate := ⟨2003, 1, 1⟩ } ∧
    ¬(∃ L2, fromKey keyY2035 = PResult.ok L2 ∧
        L2.purchaseDate = licenseY2035.purchaseDate) := by
  refine ⟨by decide, by decide, by decide, ?_⟩
  rintro ⟨L2, h1, h2⟩
  have h3 : fromKey keyY2035 = PResult.ok { licenseY2035 with purchaseDate := ⟨2003, 1, 1⟩ } := by
    decide
  rw [h3] at h1
  injection h1 with h1
  subst h1
  exact absurd h2 (by decide)

/-- Claim C1 (corrected): for every license within the builder-clamped
ranges whose purchase year additionally is at most 2034 (the 5-bit year
field reaches only 2003+31) and whose expiry is either absent or a day
count that decodes to a valid packed date (otherwise from_key panics),
and for every choice of the salt pair, from_key(generate(L)) succeeds and
preserves edition, seats, purchase_date, maintenance_expiry, salt1, salt2
and salt3. -/
theorem C1_roundtrip_stable_fields (L : License) (c1 c2 : Nat)
    (hc1 : c1 ∈ KEY_CHARS) (hc2 : c2 ∈ KEY_CHARS)
    (hL : inBuilderRanges L = true)
    (hy : L.purchaseDate.year ≤ 2034)
    (hx : L.expiry = none ∨ ∃ dx, L.expiry = some dx ∧ (dateDec dx).isSome = true) :
    ∃ k L2, generateKey L c1 c2 = some k ∧ fromKey k = PResult.ok L2 ∧
      L2.edition = L.edition ∧ L2.seats = L.seats ∧ L2.purchaseDate = L.purchaseDate ∧
      L2.maintenanceExpiry = L.maintenanceExpiry ∧ L2.unk1 = L.unk1 ∧
      L2.unk2 = L.unk2 ∧ L2.unk3 = L.unk3 := by
  obtain ⟨k, hgen, hlen, hmem, hparse⟩ := generate_parse L c1 c2 hc1 hc2 hL
  have hy1 : 2004 ≤ L.purchaseDate.year := by
    simp only [inBuilderRanges, Bool.and_eq_true] at hL
    exact dateLE_lower _ hL.1.1.1.1.1.1.1.2
  have hPD : (⟨2003 + (L.purchaseDate.year - 2003) % 32, L.purchaseDate.month,
      L.purchaseDate.day⟩ : CivilDate) = L.purchaseDate := by
    have h : 2003 + (L.purchaseDate.year - 2003) % 32 = L.purchaseDate.year := by omega
    rw [h]
  rcases hx with hx | ⟨dx, hx, hD⟩
  · refine ⟨k, { L with purchaseDate := ⟨2003 + (L.purchaseDate.year - 2003) % 32,
      L.purchaseDate.month, L.purchaseDate.day⟩ }, hgen, ?_, rfl, rfl, hPD, rfl, rfl, rfl, rfl⟩
    rw [hparse]
    simp only [parseOutcome, hx]
  · obtain ⟨D, hDD⟩ := Option.isSome_iff_exists.mp hD
    refine ⟨k, { L with
        purchaseDate := ⟨2003 + (L.purchaseDate.year - 2003) % 32,
          L.purchaseDate.month, L.purchaseDate.day⟩,
        expiry := some ((daysFromCivil D : Int) -
          (daysFromCivil ⟨2003 + (L.purchaseDate.year - 2003) % 32,
            L.purchaseDate.month, L.purchaseDate.day⟩ : Int)) },
      hgen, ?_, rfl, rfl, hPD, rfl, rfl, rfl, rfl⟩
    rw [hparse]
    simp only [parseOutcome, hx, hDD]

/-- Witness for C1 at a concrete license and the salt pair D D. -/
theorem C1_roundtrip_stable_fields_witness : ∃ k L2, generateKey (testLicense 5) 68 68 = some k ∧
    fromKey k = PResult.ok L2 ∧
    L2.edition = (testLicense 5).edition ∧ L2.seats = (testLicense 5).seats ∧
    L2.purchaseDate = (testLicense 5).purchaseDate ∧
    L2.maintenanceExpiry = (testLicense 5).maintenanceExpiry ∧
    L2.unk1 = (testLicense 5).unk1 ∧ L2.unk2 = (testLicense 5).unk2 ∧
    L2.unk3 = (testLicense 5).unk3 :=
  C1_roundtrip_stable_fields (testLicense 5) 68 68 (by decide) (by decide) (by decide) (by decide) (Or.inl rfl)

/-- Claim C5 (confirmed): generate writes the expiry as a raw day count
while from_key re-reads the field as a packed date and subtracts the
parsed purchase date; consequently, for builder-range licenses the expiry
field round-trips through generate-then-parse exactly when the expiry is
None. -/
theorem C5_expiry_roundtrip_iff_none (L : License) (c1 c2 : Nat)
    (hc1 : c1 ∈ KEY_CHARS) (hc2 : c2 ∈ KEY_CHARS)
    (hL : inBuilderRanges L = true) :
    ((∃ k L2, generateKey L c1 c2 = some k ∧ fromKey k = PResult.ok L2 ∧
        L2.expiry = L.expiry) ↔ L.expiry = none) := by
  obtain ⟨k, hgen, hlen, hmem, hparse⟩ := generate_parse L c1 c2 hc1 hc2 hL
  constructor
  · rintro ⟨k2, L2, hg2, hp2, hexp⟩
    rcases hE : L.expiry with _ | dx
    · rfl
    · exfalso
      rw [hgen] at hg2
      injection hg2 with hg2
      subst hg2
      rw [hparse] at hp2
      simp only [inBuilderRanges, Bool.and_eq_true] at hL
      have hIopt := hL.2
      rw [hE] at hIopt
      simp only [Option.all_some, decide_eq_true_eq] at hIopt
      have hvalid := hL.1.1.1.1.1.2
      simp only [isValidYmd, decide_eq_true_eq] at hvalid
      simp only [parseOutcome, hE] at hp2
      rcases hDD : dateDec dx with _ | D
      · rw [hDD] at hp2
        exact PResult.noConfusion hp2
      · rw [hDD] at hp2
        injection hp2 with hp2
        subst hp2
        rw [hE] at hexp
        simp only [Option.some.injEq] at hexp
        have hdx : dx = ((dx.toNat : Nat) : Int) := by omega
        rw [hdx] at hDD
        have hgap := expiryGap dx.toNat (by omega) D hDD
        have hP2lb : 731216 ≤ daysFromCivil ⟨2003 + (L.purchaseDate.year - 2003) % 32,
            L.purchaseDate.month, L.purchaseDate.day⟩ :=
          daysFromCivil_lb _ (by dsimp only; omega) (by dsimp only; omega)
        omega
  · intro hE
    refine ⟨k, { L with purchaseDate := ⟨2003 + (L.purchaseDate.year - 2003) % 32,
      L.purchaseDate.month, L.purchaseDate.day⟩ }, hgen, ?_, rfl⟩
    rw [hparse]
    simp only [parseOutcome, hE]

/-- Witness for C5 at a concrete license with absent expiry. -/
theorem C5_expiry_roundtrip_iff_none_witness :
    ((∃ k L2, generateKey (testLicense 5) 68 68 = some k ∧
        fromKey k = PResult.ok L2 ∧ L2.expiry = (testLicense 5).expiry) ↔
      (testLicense 5).expiry = none) :=
  C5_expiry_roundtrip_iff_none (testLicense 5) 68 68 (by decide) (by decide) (by decide)

theorem insertAt_assemble (k : List Nat) (hk : k.length = 25) :
    insertAt 5 45 (insertAt 10 45 (insertAt 15 45 (insertAt 20 45 k))) =
      k.take 5 ++ 45 :: ((k.take 10).drop 5 ++ 45 :: ((k.take 15).drop 10 ++ 45 ::
        ((k.take 20).drop 15 ++ 45 :: k.drop 20))) := by
  have h20 : (k.take 20).length = 20 := by simp [List.length_take, hk]
  have h15 : (k.take 15).length = 15 := by simp [List.length_take, hk]
  have h10 : (k.take 10).length = 10 := by simp [List.length_take, hk]
  have e20 : insertAt 20 45 k = k.take 20 ++ 45 :: k.drop 20 := rfl
  have e15 : insertAt 15 45 (k.take 20 ++ 45 :: k.drop 20) =
      k.take 15 ++ 45 :: ((k.take 20).drop 15 ++ 45 :: k.drop 20) := by
    unfold insertAt
    rw [List.take_append_of_le_length (by omega), List.drop_append_of_le_length (by omega),
      List.take_take]
    norm_num
  have e10 : insertAt 10 45 (k.take 15 ++ 45 :: ((k.take 20).drop 15 ++ 45 :: k.drop 20)) =
      k.take 10 ++ 45 :: ((k.take 15).drop 10 ++ 45 ::
        ((k.take 20).drop 15 ++ 45 :: k.drop 20)) := by
    unfold insertAt
    rw [List.take_append_of_le_length (by omega), List.drop_append_of_le_length (by omega),
      List.take_take]
    norm_num
  have e5 : insertAt 5 45 (k.take 10 ++ 45 :: ((k.take 15).drop 10 ++ 45 ::
      ((k.take 20).drop 15 ++ 45 :: k.drop 20))) =
      k.take 5 ++ 45 :: ((k.take 10).drop 5 ++ 45 :: ((k.take 15).drop 10 ++ 45 ::
        ((k.take 20).drop 15 ++ 45 :: k.drop 20))) := by
    unfold insertAt
    rw [List.take_append_of_le_length (by omega), List.drop_append_of_le_length (by omega),
      List.take_take]
    norm_num
  rw [e20, e15, e10, e5]

theorem getD_prefix_45 (p q : List Nat) (n : Nat) (h : p.length = n) :
    (p ++ 45 :: q).getD n 0 = 45 := by
  rw [List.getD_eq_getElem?_getD, List.getElem?_append_right (by omega), h]
  simp

theorem dash_facts (a b c d e : List Nat)
    (ha : a.length = 5) (hb : b.length = 5) (hcn : c.length = 5)
    (hd : d.length = 5) (he : e.length = 5) :
    (a ++ 45 :: (b ++ 45 :: (c ++ 45 :: (d ++ 45 :: e)))).length = 29 ∧
    (a ++ 45 :: (b ++ 45 :: (c ++ 45 :: (d ++ 45 :: e)))).getD 5 0 = 45 ∧
    (a ++ 45 :: (b ++ 45 :: (c ++ 45 :: (d ++ 45 :: e)))).getD 11 0 = 45 ∧
    (a ++ 45 :: (b ++ 45 :: (c ++ 45 :: (d ++ 45 :: e)))).getD 17 0 = 45 ∧
    (a ++ 45 :: (b ++ 45 :: (c ++ 45 :: (d ++ 45 :: e)))).getD 23 0 = 45 := by
  have hs11 : a ++ 45 :: (b ++ 45 :: (c ++ 45 :: (d ++ 45 :: e))) =
      (a ++ 45 :: b) ++ 45 :: (c ++ 45 :: (d ++ 45 :: e)) := by
    simp [List.cons_append, List.append_assoc]
  have hs17 : a ++ 45 :: (b ++ 45 :: (c ++ 45 :: (d ++ 45 :: e))) =
      ((a ++ 45 :: b) ++ 45 :: c) ++ 45 :: (d ++ 45 :: e) := by
    simp [List.cons_append, List.append_assoc]
  have hs23 : a ++ 45 :: (b ++ 45 :: (c ++ 45 :: (d ++ 45 :: e))) =
      (((a ++ 45 :: b) ++ 45 :: c) ++ 45 :: d) ++ 45 :: e := by
    simp [List.cons_append, List.append_assoc]
  refine ⟨by simp [ha, hb, hcn, hd, he], getD_prefix_45 a _ 5 ha, ?_, ?_, ?_⟩
  · rw [hs11]
    exact getD_prefix_45 _ _ 11 (by simp [ha, hb])
  · rw [hs17]
    exact getD_prefix_45 _ _ 17 (by simp [ha, hb, hcn])
  · rw [hs23]
    exact getD_prefix_45 _ _ 23 (by simp [ha, hb, hcn, hd])

/-- Claim C9 counterexample: generate does not return a key for every
License: the seats field is public in the source, and on a license whose
seats were set to -1 the part value fed to enc_part is negative, so the
alphabet indexing panics and no 25-byte key is returned. -/
theorem C9_generate_counterexample : generateKey negSeatsLicense 68 68 = none := by decide

/-- Claim C9 (corrected): for every license with builder-range fields and
every salt pair, generate returns exactly 25 bytes, all alphabet symbols,
and generate_string(true) returns the 29-character string obtained from
those 25 symbols by inserting ASCII dashes so that they sit at zero-based
indices 5, 11, 17 and 23 (form AAAAA-BBBBB-CCCCC-DDDDD-EEEEE). -/
theorem C9_generate_shape (L : License) (c1 c2 : Nat)
    (hc1 : c1 ∈ KEY_CHARS) (hc2 : c2 ∈ KEY_CHARS)
    (hL : inBuilderRanges L = true) :
    ∃ k, generateKey L c1 c2 = some k ∧ k.length = 25 ∧
      (∀ b ∈ k, b ∈ KEY_CHARS) ∧
      ∃ s, generateString L c1 c2 true = some s ∧
        s = k.take 5 ++ 45 :: ((k.take 10).drop 5 ++ 45 :: ((k.take 15).drop 10 ++ 45 ::
          ((k.take 20).drop 15 ++ 45 :: k.drop 20))) ∧
        s.length = 29 ∧ s.getD 5 0 = 45 ∧ s.getD 11 0 = 45 ∧
        s.getD 17 0 = 45 ∧ s.getD 23 0 = 45 := by
  obtain ⟨k, hgen, hlen, hmem, _⟩ := generate_parse L c1 c2 hc1 hc2 hL
  refine ⟨k, hgen, hlen, hmem, _, ?_, rfl, ?_⟩
  · unfold generateString
    rw [hgen]
    simp only [Option.map_some', if_true]
    rw [insertAt_assemble k hlen]
  · have h1 : (k.take 5).length = 5 := by simp [List.length_take, hlen]
    have h2 : ((k.take 10).drop 5).length = 5 := by simp [List.length_drop, List.length_take, hlen]
    have h3 : ((k.take 15).drop 10).length = 5 := by
      simp [List.length_drop, List.length_take, hlen]
    have h4 : ((k.take 20).drop 15).length = 5 := by
      simp [List.length_drop, List.length_take, hlen]
    have h5 : (k.drop 20).length = 5 := by simp [List.length_drop, hlen]
    exact dash_facts _ _ _ _ _ h1 h2 h3 h4 h5

/-- Witness for C9 at a concrete license and the salt pair D D. -/
theorem C9_generate_shape_witness : ∃ k, generateKey (testLicense 5) 68 68 = some k ∧ k.length = 25 ∧
    (∀ b ∈ k, b ∈ KEY_CHARS) ∧
    ∃ s, generateString (testLicense 5) 68 68 true = some s ∧
      s = k.take 5 ++ 45 :: ((k.take 10).drop 5 ++ 45 :: ((k.take 15).drop 10 ++ 45 ::
        ((k.take 20).drop 15 ++ 45 :: k.drop 20))) ∧
      s.length = 29 ∧ s.getD 5 0 = 45 ∧ s.getD 11 0 = 45 ∧
      s.getD 17 0 = 45 ∧ s.getD 23 0 = 45 :=
  C9_generate_shape (testLicense 5) 68 68 (by decide) (by decide) (by decide)

set_option maxRecDepth 40000 in
/-- Witness for C7 at a concrete byte list and a concrete 25-byte key. -/
theorem C7_checksum_reference_witness :
    getChecksum [51, 66, 72] = checksumSpec [51, 66, 72] ∧
    (verifyChecksum panicKey = true ↔
      (encPartN (getChecksum (panicKey.take 24)) 3).getD 1 0 = panicKey.getD 24 0) :=
  ⟨C7_checksum_reference.1 [51, 66, 72], C7_checksum_reference.2 panicKey (by decide)⟩

/-- Witness for C8: a space interleaved into the empty key, and the length
error on the empty input. -/
theorem C8_sanitization_witness :
    fromKey [32] = fromKey [] ∧
    fromKey [] =
      PResult.err (KeyError.InvalidLength 25 (([] : List Nat).filter isAsciiAlnum).length) :=
  ⟨C8_sanitization.1 [] [32] (Interleave.ins 32 (by decide) (by decide) Interleave.nil),
   C8_sanitization.2 [] (by decide)⟩

/-- Witness for C10 at the lowercase byte 97. -/
theorem C10_lowercase_bytes_witness :
    isAsciiAlnum 97 = true ∧ charIndex 97 = 0 :=
  ⟨C10_lowercase_bytes.1 97 (by decide) (by decide), C10_lowercase_bytes.2.1 97 (by decide)⟩
